import Mathlib

/-!
Verification development for the courses-guide chatbot repository.

The serverless handler (`netlify/functions/ask-gemini.js`) and the two
browser clients are embedded shallowly: external collaborators (Google
Drive, pdf-parse, mammoth, JSZip, the Gemini HTTP endpoint) are oracles
supplied as explicit function arguments, every piece of control flow of
the JavaScript is transliterated, and JavaScript strings are modelled as
`List Char` where character-level reasoning is needed.
-/

/-- JavaScript strings, at character granularity. -/
abbrev Str := List Char

/-- JavaScript regular-expression line terminators: `.` in a regex without
the `s` flag matches any character except these. -/
def lineTerm (c : Char) : Bool :=
  c = '\n' || c = '\r' || c = ' ' || c = ' '

/-- The literal opening text-run tag of the slide-XML regex. -/
def openTagStr : Str := "<a:t>".data

/-- The literal closing text-run tag of the slide-XML regex. -/
def closeTagStr : Str := "</a:t>".data

/-- Lazy search for the closing tag, as the regex fragment does
after the opening tag has matched: the shortest run of
non-line-terminator characters followed by the literal closing tag.
Returns the run together with the total number of characters consumed
(run length plus the closing tag's six characters), or `none` when no
match exists from this position. -/
def findClose : Str → Option (Str × Nat)
  | [] => none
  | c :: cs =>
    if closeTagStr.isPrefixOf (c :: cs) then some ([], 6)
    else if lineTerm c then none
    else
      match findClose cs with
      | some (run, k) => some (c :: run, k + 1)
      | none => none

/-- Global matching of the slide text-run regex over a string, as the
JavaScript `String.prototype.match` with the `g` flag performs it: try a
match at each position from the left; on success record the whole match
(opening tag, lazily matched run, closing tag) and resume after it, on
failure advance one character. -/
def scanMatches : Str → List Str
  | [] => []
  | c :: cs =>
    if openTagStr.isPrefixOf (c :: cs) then
      match findClose ((c :: cs).drop 5) with
      | some (run, k) => (openTagStr ++ run ++ closeTagStr) :: scanMatches (((c :: cs).drop 5).drop k)
      | none => scanMatches cs
    else scanMatches cs
termination_by s => s.length
decreasing_by
  · simp only [List.length_drop, List.length_cons]
    omega
  · simp only [List.length_cons]
    omega
  · simp only [List.length_cons]
    omega

/-- Lazy search for `>` used by the tag-stripping regex: number of
characters consumed through the first `>` that is reached without
crossing a line terminator. -/
def findGt : Str → Option Nat
  | [] => none
  | c :: cs =>
    if c = '>' then some 1
    else if lineTerm c then none
    else
      match findGt cs with
      | some n => some (n + 1)
      | none => none

/-- Global replacement of every remaining tag by the empty string, as the
JavaScript `replace` call does on each matched text run. -/
def stripTags : Str → Str
  | [] => []
  | c :: cs =>
    if c = '<' then
      match findGt cs with
      | some n => stripTags (cs.drop n)
      | none => c :: stripTags cs
    else c :: stripTags cs
termination_by s => s.length
decreasing_by
  · simp only [List.length_drop, List.length_cons]
    omega
  · simp only [List.length_cons]
    omega
  · simp only [List.length_cons]
    omega

/-- Text of one slide: the matched text runs, each stripped of remaining
tags, joined with single spaces. -/
def slideText (xml : Str) : Str :=
  List.intercalate ([' ']) ((scanMatches xml).map stripTags)

/-- One entry of the `ppt/slides` folder of the presentation archive, in
the archive's enumeration order. -/
structure ZipEntry where
  relativePath : Str
  content : Str

/-- Extraction for a presentation archive: keep the entries of the
`ppt/slides` folder whose path ends in `.xml`, take each slide's text,
and join slides with single newlines, preserving enumeration order. -/
def pptxText (entries : List ZipEntry) : Str :=
  List.intercalate (['\n'])
    (((entries.filter (fun e => (".xml").data.isSuffixOf e.relativePath)).map
      (fun e => slideText e.content)))

/-- Raw bytes of a fetched file. -/
abbrev ByteBuf := List Nat

/-- One record of the Drive folder listing. -/
structure DriveFile where
  id : String
  name : String
  mimeType : String

/-- Oracle for the external collaborators of the per-file pipeline: the
Drive media download and the three parsing libraries. An `Except.error`
value models the library (or the fetch) throwing. -/
structure FileOracle where
  fetchBuffer : String → Except String ByteBuf
  pdfText : ByteBuf → Except String Str
  docxText : ByteBuf → Except String Str
  pptxSlides : ByteBuf → Except String (List ZipEntry)

/-- MIME type the handler recognises as PDF. -/
def pdfMime : String := "application/pdf"

/-- MIME type the handler recognises as a Word-processing document. -/
def docxMime : String := "application/vnd.openxmlformats-officedocument.wordprocessingml.document"

/-- MIME type the handler recognises as a presentation archive. -/
def pptxMime : String := "application/vnd.openxmlformats-officedocument.presentationml.presentation"

/-- The per-file content heading the code prepends before the extracted
text. -/
def contentPre (name : String) : Str :=
  ("[Content from file: " ++ name ++ "]\n").data

/-- The per-file failure placeholder returned by the `catch` block. -/
def errSeg (name : String) : Str :=
  ("[Error reading file: " ++ name ++ "]").data

/-- Body of the per-file `try` block: fetch the bytes, dispatch on the
declared MIME type, and prefix the extracted text with the content
heading; unsupported types get a placeholder body. -/
def fileTryBody (o : FileOracle) (f : DriveFile) : Except String Str := do
  let buf ← o.fetchBuffer f.id
  if f.mimeType = pdfMime then
    let t ← o.pdfText buf
    pure (contentPre f.name ++ t)
  else if f.mimeType = docxMime then
    let t ← o.docxText buf
    pure (contentPre f.name ++ t)
  else if f.mimeType = pptxMime then
    let entries ← o.pptxSlides buf
    pure (contentPre f.name ++ pptxText entries)
  else
    pure (contentPre f.name ++ ("[Unsupported file type: " ++ f.name ++ "]").data)

/-- One file's segment: the `try` body's result, or on any thrown error
the failure placeholder embedding the file name. -/
def processFile (o : FileOracle) (f : DriveFile) : Str :=
  match fileTryBody o f with
  | .ok t => t
  | .error _ => errSeg f.name

/-- The fixed delimiter joining per-file segments. -/
def segDelim : Str := "\n\n---\n\n".data

/-- The aggregation function `getKnowledgeFromDrive`: list the folder
(`listing` is the result of `drive.files.list`, whose `files` field may
be absent), return the empty string when there are no files, otherwise
join the per-file segments with the fixed delimiter in listing order. -/
def getKnowledgeFromDrive (o : FileOracle) (listing : Except String (Option (List DriveFile))) :
    Except String Str :=
  match listing with
  | .error e => .error e
  | .ok none => .ok []
  | .ok (some files) =>
    if files.length = 0 then .ok []
    else .ok (List.intercalate segDelim (files.map (processFile o)))

/-- The two module-level mutable variables of the caching mechanism. -/
structure CacheState where
  cachedKnowledgeBase : Option Str
  cacheTimestamp : Int

/-- Module state at process start: `null` document, timestamp `0`. -/
def initialCacheState : CacheState :=
  { cachedKnowledgeBase := none, cacheTimestamp := 0 }

/-- The fixed cache expiry window: five minutes in milliseconds. -/
def CACHE_DURATION : Int := 5 * 60 * 1000

/-- JavaScript truthiness of a possibly-absent string environment value:
`undefined` and the empty string are falsy. -/
def jsTruthyOptStr : Option String → Bool
  | none => false
  | some s => !(s = "")

/-- JavaScript truthiness of the cached knowledge-base variable: `null`
and the empty string are falsy. -/
def jsTruthyKB : Option Str → Bool
  | none => false
  | some s => !s.isEmpty

/-- JavaScript `x || d` for a possibly-absent string `x`: the default is
taken when the value is absent or empty. -/
def jsOrStr : Option String → String → String
  | none, d => d
  | some s, d => if s = "" then d else s

/-- Parsed reply of the Gemini `fetch` call: the HTTP `ok` flag, the
`error.message` field of the error payload when present, and the JSON
text the handler passes back verbatim on success. -/
structure GeminiResp where
  ok : Bool
  errMessage : Option String
  bodyText : String

/-- Request-independent surroundings of one handler invocation: the three
environment variables (absent or a string), whether
`JSON.parse(DRIVE_API_CREDENTIALS)` succeeds, the Drive listing outcome,
the per-file oracle, the value `Date.now()` returns, and the Gemini call
as a function of the prompt. -/
structure Env where
  geminiApiKey : Option String
  driveApiCredentials : Option String
  driveFolderId : Option String
  credentialsValid : Bool
  listing : Except String (Option (List DriveFile))
  oracle : FileOracle
  now : Int
  gemini : Str → Except String GeminiResp

/-- One incoming request: its HTTP method and the outcome of
`JSON.parse(event.body)` projected to the `userQuestion` field (`none`
when the field is absent). -/
structure Event where
  httpMethod : String
  bodyParse : Except String (Option String)

/-- Body of the HTTP response: the model JSON passed through on success,
or the serialised `error` object. -/
inductive RespBody
  | json (s : String)
  | errorJson (s : String)
deriving DecidableEq

/-- The handler's HTTP response. -/
structure HttpResponse where
  statusCode : Nat
  body : RespBody
deriving DecidableEq

/-- Observable outcome of one handler invocation: the response, the
module state afterwards, whether the cache-miss branch (credential parse
plus Drive aggregation) ran, and the knowledge-base value the request
bound, when it reached that point. -/
structure HandlerOut where
  resp : HttpResponse
  state : CacheState
  refreshed : Bool
  usedKnowledge : Option Str

/-- Response of the shared `catch` block: status 500 with the message
wrapped in the fixed error template. -/
def mkFail (msg : String) (st : CacheState) (r : Bool) (uk : Option Str) : HandlerOut :=
  { resp := { statusCode := 500, body := RespBody.errorJson ("Function Error: " ++ msg) },
    state := st, refreshed := r, usedKnowledge := uk }

/-- Opening piece of the prompt template, up to the interpolated
knowledge base. -/
def promptHead : String :=
  "You are a helpful university course assistant named 'Courses Guide'. Your job is to answer student questions based ONLY on the provided course information from the documents. If the answer is not found, you must say \"I'm sorry, I don't have information on that.\" Do not make up answers.\n\nHere is the course information:\n---\n"

/-- Middle piece of the prompt template, between the knowledge base and
the interpolated user question. -/
def promptMid : String :=
  "\n---\n\nNow, please answer the following question: \""

/-- The full prompt string the handler sends to the model. -/
def promptFor (kb : Str) (q : String) : Str :=
  promptHead.data ++ kb ++ promptMid.data ++ q.data ++ ("\"").data

/-- Steps of the handler after the knowledge base is bound: parse the
request body, require a truthy `userQuestion`, call Gemini, and map a
non-ok reply to its error message (with the fixed fallback when the
upstream message is absent or empty). -/
def askOutcome (env : Env) (kb : Str) (bp : Except String (Option String)) :
    Except String String :=
  match bp with
  | .error e => .error e
  | .ok uq =>
    if jsTruthyOptStr uq = false then .error ("No user question was provided.")
    else
      match env.gemini (promptFor kb (uq.getD "")) with
      | .error e => .error e
      | .ok r =>
        if r.ok = false then .error (jsOrStr r.errMessage ("Failed to fetch from Gemini API."))
        else .ok r.bodyText

/-- Wraps `askOutcome` into the handler's observable outcome, carrying
the module state and refresh flag established before this point. -/
def afterKB (env : Env) (st : CacheState) (r : Bool) (kb : Str)
    (bp : Except String (Option String)) : HandlerOut :=
  match askOutcome env kb bp with
  | .error m => mkFail m st r (some kb)
  | .ok b =>
    { resp := { statusCode := 200, body := RespBody.json b },
      state := st, refreshed := r, usedKnowledge := some kb }

/-- The cache-miss (refresh) branch of the handler: parse the service
credentials, aggregate the folder, reject an empty aggregate, and on
success store the new document with the current time before continuing
with the request. All of its outcomes carry `refreshed := true`. -/
def refreshBranch (env : Env) (st : CacheState) (bp : Except String (Option String)) : HandlerOut :=
  if env.credentialsValid = false then
    mkFail ("Server configuration error: DRIVE_API_CREDENTIALS is not valid JSON.") st true none
  else
    match getKnowledgeFromDrive env.oracle env.listing with
    | .error e => mkFail e st true none
    | .ok kb =>
      if kb.isEmpty then
        mkFail ("Could not retrieve any content from the Google Drive folder.") st true none
      else
        afterKB env { cachedKnowledgeBase := some kb, cacheTimestamp := env.now } true kb bp

/-- The serverless handler, one invocation: method gate, environment
validation, the cache-or-refresh decision over the module state, then the
question/model steps. -/
def handler (env : Env) (st : CacheState) (ev : Event) : HandlerOut :=
  if ev.httpMethod ≠ "POST" then
    { resp := { statusCode := 405, body := RespBody.errorJson ("Method Not Allowed") },
      state := st, refreshed := false, usedKnowledge := none }
  else if jsTruthyOptStr env.geminiApiKey = false then
    mkFail ("Server configuration error: GEMINI_API_KEY is missing.") st false none
  else if jsTruthyOptStr env.driveApiCredentials = false then
    mkFail ("Server configuration error: DRIVE_API_CREDENTIALS is missing.") st false none
  else if jsTruthyOptStr env.driveFolderId = false then
    mkFail ("Server configuration error: DRIVE_FOLDER_ID is missing.") st false none
  else if jsTruthyKB st.cachedKnowledgeBase = true ∧ env.now - st.cacheTimestamp < CACHE_DURATION then
    afterKB env st false (st.cachedKnowledgeBase.getD []) ev.bodyParse
  else
    refreshBranch env st ev.bodyParse

/-- Invariant of the module state: the slot is either unpopulated (with
timestamp zero, as at process start) or holds a non-empty document. -/
def cacheWellFormed (st : CacheState) : Prop :=
  match st.cachedKnowledgeBase with
  | none => st.cacheTimestamp = 0
  | some d => d ≠ []

instance (st : CacheState) : Decidable (cacheWellFormed st) := by
  unfold cacheWellFormed
  exact match st.cachedKnowledgeBase with
    | none => inferInstanceAs (Decidable _)
    | some _ => inferInstanceAs (Decidable _)

/-- One `parts` element of a Gemini candidate, as the browser client
reads it. -/
structure GPart where
  text : Option String

/-- The `content` object of a Gemini candidate. -/
structure GContent where
  parts : List GPart

/-- One element of the `candidates` array. -/
structure GCandidate where
  content : Option GContent
  finishReason : Option String

/-- The parsed JSON body the single-turn client receives. -/
structure GResult where
  candidates : Option (List GCandidate)

/-- The optional-chaining expression
`result.candidates?.[0]?.content?.parts?.[0]?.text` of the client. -/
def getGeneratedText (r : GResult) : Option String :=
  (((r.candidates.bind (fun cs => cs[0]?)).bind (fun c => c.content)).bind
    (fun c => c.parts[0]?)).bind (fun p => p.text)

/-- The optional-chaining expression `result.candidates?.[0]?.finishReason`. -/
def getFinishReason (r : GResult) : Option String :=
  (r.candidates.bind (fun cs => cs[0]?)).bind (fun c => c.finishReason)

/-- What the single-turn client renders after a request. -/
inductive Display
  | answer (text : String)
  | error (msg : String)
deriving DecidableEq

/-- Rendering of an HTTP-ok response by the single-turn client: show the
generated text when truthy; otherwise show the safety-block error message
when the first candidate finished with `SAFETY`, and the generic
empty-response error message otherwise. -/
def renderOkResult (r : GResult) : Display :=
  if jsTruthyOptStr (getGeneratedText r) = true then
    Display.answer ((getGeneratedText r).getD "")
  else if getFinishReason r = some ("SAFETY") then
    Display.error ("The response was blocked due to safety settings. Try rephrasing your question.")
  else
    Display.error ("Could not get a valid answer from the AI. The response was empty.")

/-- Full rendering decision of the single-turn client `handleAsk` once
the response JSON is parsed: a non-ok response surfaces the payload's
`error` field (or the fixed status message), an ok response is rendered
by `renderOkResult`. -/
def handleAskRender (ok : Bool) (status : Nat) (errField : Option String) (r : GResult) : Display :=
  if ok = false then
    Display.error (jsOrStr errField ("Request failed with status " ++ toString status))
  else renderOkResult r

/-- Sample listing record: an extractable PDF. -/
def syllabusFile : DriveFile :=
  { id := "f1", name := "syllabus.pdf", mimeType := pdfMime }

/-- Sample listing record: a Word document whose extraction throws. -/
def notesFile : DriveFile :=
  { id := "f2", name := "notes.docx", mimeType := docxMime }

/-- Sample oracle: fetches succeed, the PDF parser yields a fixed text,
the Word parser throws, the archive loader throws. -/
def sampleOracle : FileOracle :=
  { fetchBuffer := fun _ => Except.ok []
    pdfText := fun _ => Except.ok ("Week 1: Intro".data)
    docxText := fun _ => Except.error ("mammoth failed")
    pptxSlides := fun _ => Except.error ("not a zip archive") }

/-- Sample surroundings with valid configuration, a folder listing one
extractable PDF, and a Gemini call that succeeds. -/
def sampleEnv : Env :=
  { geminiApiKey := some ("key")
    driveApiCredentials := some ("credentials-json")
    driveFolderId := some ("folder")
    credentialsValid := true
    listing := Except.ok (some [syllabusFile])
    oracle := sampleOracle
    now := 1000000
    gemini := fun _ => Except.ok { ok := true, errMessage := none, bodyText := "model-reply" } }

/-- A POST request whose JSON body is a multi-turn `chatHistory` payload:
it parses, and its `userQuestion` field is absent. -/
def chatHistoryEvent : Event :=
  { httpMethod := "POST", bodyParse := Except.ok none }

/-- A POST request with a truthy `userQuestion`. -/
def questionEvent : Event :=
  { httpMethod := "POST", bodyParse := Except.ok (some ("What is the late policy?")) }

/-- Sample surroundings whose Drive listing call throws. -/
def listingErrorEnv : Env :=
  { sampleEnv with listing := Except.error ("Drive listing failed") }

/-- Sample surroundings whose folder listing succeeds with zero files. -/
def emptyFolderEnv : Env :=
  { sampleEnv with listing := Except.ok (some []) }

/-- A sample already-populated module state: a non-empty document stored
at time zero. -/
def warmCacheState : CacheState :=
  { cachedKnowledgeBase := some ("cached knowledge".data), cacheTimestamp := 0 }

/-- Sample model result: no text, safety-block finish indicator. -/
def safetyBlockedResult : GResult :=
  { candidates := some [{ content := none, finishReason := some ("SAFETY") }] }

/-- Sample model result: no candidates at all (text merely absent). -/
def emptyCandidatesResult : GResult :=
  { candidates := none }

/-- Sample slide entries of a presentation archive: one slide with two
text runs, one slide with none, and one non-XML entry. -/
def sampleSlides : List ZipEntry :=
  [{ relativePath := "slide1.xml".data, content := "<p><a:t>Hello</a:t><a:t>World</a:t></p>".data },
   { relativePath := "slide2.xml".data, content := "<p>no text runs here</p>".data },
   { relativePath := "thumb.png".data, content := "binary".data }]

theorem afterKB_proj (env : Env) (st : CacheState) (r : Bool) (kb : Str)
    (bp : Except String (Option String)) :
    (afterKB env st r kb bp).state = st ∧ (afterKB env st r kb bp).refreshed = r ∧
    (afterKB env st r kb bp).usedKnowledge = some kb := by
  unfold afterKB
  cases askOutcome env kb bp <;> simp [mkFail]

theorem refreshBranch_refreshed (env : Env) (st : CacheState)
    (bp : Except String (Option String)) : (refreshBranch env st bp).refreshed = true := by
  unfold refreshBranch
  split
  · rfl
  · split
    · rfl
    · split
      · rfl
      · exact (afterKB_proj _ _ _ _ _).2.1

theorem refreshBranch_state (env : Env) (st : CacheState) (bp : Except String (Option String)) :
    (refreshBranch env st bp).state = st ∨
    ∃ kb, getKnowledgeFromDrive env.oracle env.listing = Except.ok kb ∧ kb ≠ [] ∧
      (refreshBranch env st bp).state =
        { cachedKnowledgeBase := some kb, cacheTimestamp := env.now } := by
  unfold refreshBranch
  split
  · exact Or.inl rfl
  · split
    · exact Or.inl rfl
    · next kb hg =>
      split
      · exact Or.inl rfl
      · next hkb =>
        right
        refine ⟨kb, hg, ?_, (afterKB_proj _ _ _ _ _).1⟩
        simpa using hkb

theorem cacheWellFormed_iff (st : CacheState) :
    cacheWellFormed st ↔
      ((st.cachedKnowledgeBase = none ∧ st.cacheTimestamp = 0) ∨
        ∃ d, st.cachedKnowledgeBase = some d ∧ d ≠ []) := by
  obtain ⟨cb, ts⟩ := st
  cases cb <;> simp [cacheWellFormed]

theorem handler_reduce (env : Env) (st : CacheState) (ev : Event)
    (hm : ev.httpMethod = "POST")
    (hg : jsTruthyOptStr env.geminiApiKey = true)
    (hc : jsTruthyOptStr env.driveApiCredentials = true)
    (hf : jsTruthyOptStr env.driveFolderId = true) :
    handler env st ev =
      if jsTruthyKB st.cachedKnowledgeBase = true ∧
          env.now - st.cacheTimestamp < CACHE_DURATION then
        afterKB env st false (st.cachedKnowledgeBase.getD []) ev.bodyParse
      else refreshBranch env st ev.bodyParse := by
  unfold handler
  rw [hm]
  simp [hg, hc, hf]

theorem handler_not_refreshed_used (env : Env) (st : CacheState) (ev : Event) :
    (handler env st ev).refreshed = false →
      (handler env st ev).usedKnowledge = none ∨
      ((handler env st ev).usedKnowledge = some (st.cachedKnowledgeBase.getD []) ∧
        jsTruthyKB st.cachedKnowledgeBase = true) := by
  unfold handler
  split
  · intro _; exact Or.inl rfl
  split
  · intro _; exact Or.inl rfl
  split
  · intro _; exact Or.inl rfl
  split
  · intro _; exact Or.inl rfl
  split
  · next hcond =>
    intro _
    exact Or.inr ⟨(afterKB_proj _ _ _ _ _).2.2, hcond.1⟩
  · intro hr
    rw [refreshBranch_refreshed] at hr
    cases hr

/-- C1: for every request, the knowledge-cache lookup runs the refresh
branch if and only if no cached document exists or the cached document's
age is at least the fixed five-minute expiry; otherwise the request binds
the stored document unchanged and leaves the state untouched. -/
theorem cache_refresh_iff_stale_or_missing (env : Env) (st : CacheState) (ev : Event)
    (hwf : cacheWellFormed st) (hm : ev.httpMethod = "POST")
    (hg : jsTruthyOptStr env.geminiApiKey = true)
    (hc : jsTruthyOptStr env.driveApiCredentials = true)
    (hf : jsTruthyOptStr env.driveFolderId = true) :
    ((handler env st ev).refreshed = true ↔
      (st.cachedKnowledgeBase = none ∨ CACHE_DURATION ≤ env.now - st.cacheTimestamp)) ∧
    ((handler env st ev).refreshed = false →
      (handler env st ev).usedKnowledge = st.cachedKnowledgeBase ∧
      (handler env st ev).state = st) := by
  rw [handler_reduce env st ev hm hg hc hf]
  by_cases hcond : jsTruthyKB st.cachedKnowledgeBase = true ∧
      env.now - st.cacheTimestamp < CACHE_DURATION
  · rw [if_pos hcond]
    obtain ⟨ht, hlt⟩ := hcond
    cases hcb : st.cachedKnowledgeBase with
    | none => rw [hcb] at ht; simp [jsTruthyKB] at ht
    | some d =>
      constructor
      · rw [(afterKB_proj _ _ _ _ _).2.1]
        constructor
        · intro h; cases h
        · rintro (h0 | h0)
          · simp at h0
          · omega
      · intro _
        refine ⟨?_, (afterKB_proj _ _ _ _ _).1⟩
        rw [(afterKB_proj _ _ _ _ _).2.2]
        rfl
  · rw [if_neg hcond]
    constructor
    · rw [refreshBranch_refreshed]
      constructor
      · intro _
        cases hcb : st.cachedKnowledgeBase with
        | none => exact Or.inl rfl
        | some d =>
          right
          have hd : d ≠ [] := by
            rcases (cacheWellFormed_iff st).1 hwf with ⟨h0, _⟩ | ⟨d', hd', hne⟩
            · rw [hcb] at h0; cases h0
            · rw [hcb] at hd'; cases hd'; exact hne
          have ht : jsTruthyKB st.cachedKnowledgeBase = true := by
            rw [hcb]; simpa [jsTruthyKB]
          have : ¬(env.now - st.cacheTimestamp < CACHE_DURATION) := fun hlt => hcond ⟨ht, hlt⟩
          omega
      · intro _; rfl
    · intro hr
      rw [refreshBranch_refreshed] at hr
      cases hr

theorem cache_refresh_iff_stale_or_missing_witness :
    ((handler sampleEnv initialCacheState questionEvent).refreshed = true ↔
      (initialCacheState.cachedKnowledgeBase = none ∨
        CACHE_DURATION ≤ sampleEnv.now - initialCacheState.cacheTimestamp)) ∧
    ((handler sampleEnv initialCacheState questionEvent).refreshed = false →
      (handler sampleEnv initialCacheState questionEvent).usedKnowledge =
        initialCacheState.cachedKnowledgeBase ∧
      (handler sampleEnv initialCacheState questionEvent).state = initialCacheState) :=
  cache_refresh_iff_stale_or_missing sampleEnv initialCacheState questionEvent
    (by decide) rfl (by decide) (by decide) (by decide)

theorem refreshBranch_failure (env : Env) (st : CacheState) (bp : Except String (Option String))
    (hfail : env.credentialsValid = false ∨ (∃ e, env.listing = Except.error e) ∨
      getKnowledgeFromDrive env.oracle env.listing = Except.ok []) :
    ∃ m, refreshBranch env st bp = mkFail m st true none := by
  unfold refreshBranch
  rcases hfail with hcv | ⟨e, he⟩ | hempty
  · rw [if_pos hcv]
    exact ⟨_, rfl⟩
  · by_cases hcv : env.credentialsValid = false
    · rw [if_pos hcv]
      exact ⟨_, rfl⟩
    · rw [if_neg hcv]
      have hge : getKnowledgeFromDrive env.oracle env.listing = Except.error e := by
        unfold getKnowledgeFromDrive
        rw [he]
      rw [hge]
      exact ⟨e, rfl⟩
  · by_cases hcv : env.credentialsValid = false
    · rw [if_pos hcv]
      exact ⟨_, rfl⟩
    · rw [if_neg hcv, hempty]
      exact ⟨_, rfl⟩

theorem refreshBranch_success (env : Env) (st : CacheState) (bp : Except String (Option String))
    (kb : Str) (hcv : env.credentialsValid = true)
    (hagg : getKnowledgeFromDrive env.oracle env.listing = Except.ok kb) (hne : kb ≠ []) :
    refreshBranch env st bp =
      afterKB env { cachedKnowledgeBase := some kb, cacheTimestamp := env.now } true kb bp := by
  unfold refreshBranch
  rw [if_neg (by simp [hcv]), hagg]
  have hkbe : kb.isEmpty = false := by simpa using hne
  simp [hkbe]

/-- C3: when a request triggers a refresh and the refresh fails — Drive
listing error, credential-parse error, or empty aggregation result — the
error propagates as a 500 response and neither the stored cached document
nor its timestamp is mutated. -/
theorem refresh_failure_leaves_cache_unchanged (env : Env) (st : CacheState) (ev : Event)
    (hm : ev.httpMethod = "POST")
    (hg : jsTruthyOptStr env.geminiApiKey = true)
    (hc : jsTruthyOptStr env.driveApiCredentials = true)
    (hf : jsTruthyOptStr env.driveFolderId = true)
    (hmiss : ¬(jsTruthyKB st.cachedKnowledgeBase = true ∧
      env.now - st.cacheTimestamp < CACHE_DURATION))
    (hfail : env.credentialsValid = false ∨ (∃ e, env.listing = Except.error e) ∨
      getKnowledgeFromDrive env.oracle env.listing = Except.ok []) :
    (handler env st ev).state = st ∧ (handler env st ev).refreshed = true ∧
    ∃ m, (handler env st ev).resp =
      { statusCode := 500, body := RespBody.errorJson ("Function Error: " ++ m) } := by
  rw [handler_reduce env st ev hm hg hc hf, if_neg hmiss]
  obtain ⟨m, hmf⟩ := refreshBranch_failure env st ev.bodyParse hfail
  rw [hmf]
  exact ⟨rfl, rfl, m, rfl⟩

theorem refresh_failure_leaves_cache_unchanged_witness :
    (handler listingErrorEnv warmCacheState questionEvent).state = warmCacheState ∧
    (handler listingErrorEnv warmCacheState questionEvent).refreshed = true ∧
    ∃ m, (handler listingErrorEnv warmCacheState questionEvent).resp =
      { statusCode := 500, body := RespBody.errorJson ("Function Error: " ++ m) } :=
  refresh_failure_leaves_cache_unchanged listingErrorEnv warmCacheState questionEvent
    rfl (by decide) (by decide) (by decide) (by decide)
    (Or.inr (Or.inl ⟨"Drive listing failed", rfl⟩))

/-- C6: a refresh that observes a folder containing zero files gets the
empty string from aggregation, and the handler raises an error surfaced
as status 500 instead of answering with an empty knowledge base, storing
nothing in the cache. -/
theorem empty_folder_aggregation_rejected (env : Env) (st : CacheState) (ev : Event)
    (hm : ev.httpMethod = "POST")
    (hg : jsTruthyOptStr env.geminiApiKey = true)
    (hc : jsTruthyOptStr env.driveApiCredentials = true)
    (hf : jsTruthyOptStr env.driveFolderId = true)
    (hmiss : ¬(jsTruthyKB st.cachedKnowledgeBase = true ∧
      env.now - st.cacheTimestamp < CACHE_DURATION))
    (hcv : env.credentialsValid = true)
    (hzero : env.listing = Except.ok (some [])) :
    getKnowledgeFromDrive env.oracle env.listing = Except.ok [] ∧
    (handler env st ev).resp =
      { statusCode := 500,
        body := RespBody.errorJson
          ("Function Error: Could not retrieve any content from the Google Drive folder.") } ∧
    (handler env st ev).state = st ∧ (handler env st ev).refreshed = true := by
  have hagg : getKnowledgeFromDrive env.oracle env.listing = Except.ok [] := by
    unfold getKnowledgeFromDrive
    rw [hzero]
    rfl
  refine ⟨hagg, ?_⟩
  rw [handler_reduce env st ev hm hg hc hf, if_neg hmiss]
  unfold refreshBranch
  rw [if_neg (by simp [hcv]), hagg]
  exact ⟨rfl, rfl, rfl⟩

theorem empty_folder_aggregation_rejected_witness :
    getKnowledgeFromDrive emptyFolderEnv.oracle emptyFolderEnv.listing = Except.ok [] ∧
    (handler emptyFolderEnv initialCacheState questionEvent).resp =
      { statusCode := 500,
        body := RespBody.errorJson
          ("Function Error: Could not retrieve any content from the Google Drive folder.") } ∧
    (handler emptyFolderEnv initialCacheState questionEvent).state = initialCacheState ∧
    (handler emptyFolderEnv initialCacheState questionEvent).refreshed = true :=
  empty_folder_aggregation_rejected emptyFolderEnv initialCacheState questionEvent
    rfl (by decide) (by decide) (by decide) (by decide) rfl rfl

/-- C9: the module cache slot starts unpopulated with timestamp zero,
every request preserves the invariant that it is unpopulated or holds a
non-empty document (an empty aggregate is rejected before the cache
assignment), and a request that serves from the cache always binds a
non-empty knowledge base. -/
theorem cache_nonempty_invariant :
    cacheWellFormed initialCacheState ∧
    (∀ env st ev, cacheWellFormed st → cacheWellFormed (handler env st ev).state) ∧
    (∀ env st ev k, (handler env st ev).refreshed = false →
      (handler env st ev).usedKnowledge = some k → k ≠ []) := by
  refine ⟨rfl, ?_, ?_⟩
  · intro env st ev hwf
    unfold handler
    split
    · exact hwf
    split
    · exact hwf
    split
    · exact hwf
    split
    · exact hwf
    split
    · rw [(afterKB_proj _ _ _ _ _).1]
      exact hwf
    · rcases refreshBranch_state env st ev.bodyParse with h | ⟨kb, _, hne, h⟩
      · rw [h]
        exact hwf
      · rw [h]
        exact hne
  · intro env st ev k hr hu
    rcases handler_not_refreshed_used env st ev hr with h | ⟨h, ht⟩
    · rw [h] at hu
      cases hu
    · rw [h] at hu
      cases hcb : st.cachedKnowledgeBase with
      | none =>
        rw [hcb] at ht
        simp [jsTruthyKB] at ht
      | some d =>
        rw [hcb] at ht hu
        simp only [jsTruthyKB, Bool.not_eq_true'] at ht
        simp only [Option.getD_some, Option.some.injEq] at hu
        intro hnil
        rw [hu, hnil] at ht
        simp at ht

theorem cache_nonempty_invariant_witness :
    cacheWellFormed (handler sampleEnv initialCacheState questionEvent).state :=
  cache_nonempty_invariant.2.1 sampleEnv initialCacheState questionEvent rfl

/-- C10: a POST request whose parsed body has no `userQuestion` is
rejected with the missing-question 500 error, but only after the cache
check; on a stale or absent cache the full successful aggregation still
runs and populates the shared cache before the 500 response, while on a
fresh cache no refresh runs. -/
theorem missing_question_rejected_after_refresh (env : Env) (st : CacheState) (ev : Event)
    (kb : Str)
    (hm : ev.httpMethod = "POST")
    (hg : jsTruthyOptStr env.geminiApiKey = true)
    (hc : jsTruthyOptStr env.driveApiCredentials = true)
    (hf : jsTruthyOptStr env.driveFolderId = true)
    (hcv : env.credentialsValid = true)
    (hbody : ev.bodyParse = Except.ok none)
    (hagg : getKnowledgeFromDrive env.oracle env.listing = Except.ok kb)
    (hne : kb ≠ []) :
    (¬(jsTruthyKB st.cachedKnowledgeBase = true ∧
        env.now - st.cacheTimestamp < CACHE_DURATION) →
      (handler env st ev).resp =
        { statusCode := 500,
          body := RespBody.errorJson ("Function Error: No user question was provided.") } ∧
      (handler env st ev).state =
        { cachedKnowledgeBase := some kb, cacheTimestamp := env.now } ∧
      (handler env st ev).refreshed = true) ∧
    ((jsTruthyKB st.cachedKnowledgeBase = true ∧
        env.now - st.cacheTimestamp < CACHE_DURATION) →
      (handler env st ev).resp =
        { statusCode := 500,
          body := RespBody.errorJson ("Function Error: No user question was provided.") } ∧
      (handler env st ev).state = st ∧ (handler env st ev).refreshed = false) := by
  have haft : ∀ st' r kb', afterKB env st' r kb' (Except.ok none) =
      mkFail ("No user question was provided.") st' r (some kb') := by
    intro st' r kb'
    rfl
  constructor
  · intro hmiss
    rw [handler_reduce env st ev hm hg hc hf, if_neg hmiss,
      refreshBranch_success env st ev.bodyParse kb hcv hagg hne, hbody, haft]
    exact ⟨rfl, rfl, rfl⟩
  · intro hcond
    rw [handler_reduce env st ev hm hg hc hf, if_pos hcond, hbody, haft]
    exact ⟨rfl, rfl, rfl⟩

theorem missing_question_rejected_after_refresh_witness :
    (handler sampleEnv initialCacheState chatHistoryEvent).resp =
      { statusCode := 500,
        body := RespBody.errorJson ("Function Error: No user question was provided.") } ∧
    (handler sampleEnv initialCacheState chatHistoryEvent).state =
      { cachedKnowledgeBase := some (processFile sampleOracle syllabusFile),
        cacheTimestamp := sampleEnv.now } ∧
    (handler sampleEnv initialCacheState chatHistoryEvent).refreshed = true :=
  (missing_question_rejected_after_refresh sampleEnv initialCacheState chatHistoryEvent
    (processFile sampleOracle syllabusFile) rfl (by decide) (by decide) (by decide) rfl rfl
    rfl (by decide)).1 (by decide)

/-- C2 (the claimed behaviour fails on the code): a POST request whose
body carries a multi-turn `chatHistory` and no `userQuestion`, in an
environment where the Drive refresh fully succeeds, is answered with
status 500 and the missing-question error, not status 200 with a model
reply — the service has no chat mode. -/
theorem chatHistory_request_rejected_with_500 :
    (handler sampleEnv initialCacheState chatHistoryEvent).resp =
      { statusCode := 500,
        body := RespBody.errorJson ("Function Error: No user question was provided.") } ∧
    (handler sampleEnv initialCacheState chatHistoryEvent).resp.statusCode ≠ 200 := by
  constructor
  · decide
  · decide

theorem contentPre_append_ne_errSeg (n : String) (b : Str) : contentPre n ++ b ≠ errSeg n := by
  intro h
  have e1 : contentPre n = '[' :: 'C' :: ("ontent from file: ".data ++ (n.data ++ "]\n".data)) := by
    show ("[Content from file: " ++ n ++ "]\n").data = _
    rw [String.data_append, String.data_append, List.append_assoc]
    rfl
  have e2 : errSeg n = '[' :: 'E' :: ("rror reading file: ".data ++ (n.data ++ "]".data)) := by
    show ("[Error reading file: " ++ n ++ "]").data = _
    rw [String.data_append, String.data_append, List.append_assoc]
    rfl
  rw [e1, e2, List.cons_append, List.cons_append] at h
  injection h with _ h2
  injection h2 with h3 _
  exact absurd h3 (by decide)

theorem fileTryBody_ok_shape (o : FileOracle) (f : DriveFile) (t : Str)
    (h : fileTryBody o f = Except.ok t) : ∃ b, t = contentPre f.name ++ b := by
  unfold fileTryBody at h
  cases hfb : o.fetchBuffer f.id with
  | error e =>
    rw [hfb] at h
    simp [Bind.bind, Except.bind] at h
  | ok buf =>
    rw [hfb] at h
    simp only [Bind.bind, Except.bind] at h
    split_ifs at h
    · cases hp : o.pdfText buf with
      | error e =>
        rw [hp] at h
        simp [Except.bind] at h
      | ok tx =>
        rw [hp] at h
        simp only [Except.bind, Pure.pure, Except.pure, Except.ok.injEq] at h
        exact ⟨tx, h.symm⟩
    · cases hp : o.docxText buf with
      | error e =>
        rw [hp] at h
        simp [Except.bind] at h
      | ok tx =>
        rw [hp] at h
        simp only [Except.bind, Pure.pure, Except.pure, Except.ok.injEq] at h
        exact ⟨tx, h.symm⟩
    · cases hp : o.pptxSlides buf with
      | error e =>
        rw [hp] at h
        simp [Except.bind] at h
      | ok entries =>
        rw [hp] at h
        simp only [Except.bind, Pure.pure, Except.pure, Except.ok.injEq] at h
        exact ⟨pptxText entries, h.symm⟩
    · simp only [Pure.pure, Except.pure, Except.ok.injEq] at h
      exact ⟨_, h.symm⟩

/-- C4: aggregation over a folder listing is the delimiter-join of one
segment per file in listing order; a file whose fetch-and-extract throws
contributes exactly the failure placeholder embedding its name, any other
file contributes the content heading followed by its extracted text, and
a segment is the failure placeholder exactly when its own file failed —
so one file's failure never aborts or alters the other files' segments. -/
theorem aggregation_segment_structure (o : FileOracle) (files : List DriveFile) :
    getKnowledgeFromDrive o (Except.ok (some files)) =
      Except.ok (List.intercalate segDelim (files.map (processFile o))) ∧
    (files.map (processFile o)).length = files.length ∧
    (∀ i (h : i < files.length),
      (files.map (processFile o))[i]? = some (processFile o (files.get ⟨i, h⟩))) ∧
    (∀ f : DriveFile,
      ((fileTryBody o f).isOk = false → processFile o f = errSeg f.name) ∧
      ((fileTryBody o f).isOk = true →
        ∃ b, fileTryBody o f = Except.ok (contentPre f.name ++ b) ∧
          processFile o f = contentPre f.name ++ b) ∧
      (processFile o f = errSeg f.name ↔ (fileTryBody o f).isOk = false)) := by
  refine ⟨?_, by simp, ?_, ?_⟩
  · by_cases h0 : files.length = 0
    · obtain rfl : files = [] := by simpa using h0
      rfl
    · simp [getKnowledgeFromDrive, h0]
  · intro i h
    simp [List.getElem?_map, List.getElem?_eq_getElem, h]
  · intro f
    have hfail : (fileTryBody o f).isOk = false → processFile o f = errSeg f.name := by
      intro hko
      cases hfb : fileTryBody o f with
      | error e => simp [processFile, hfb]
      | ok t => rw [hfb] at hko; cases hko
    have hok : (fileTryBody o f).isOk = true →
        ∃ b, fileTryBody o f = Except.ok (contentPre f.name ++ b) ∧
          processFile o f = contentPre f.name ++ b := by
      intro hko
      cases hfb : fileTryBody o f with
      | error e => rw [hfb] at hko; cases hko
      | ok t =>
        obtain ⟨b, hb⟩ := fileTryBody_ok_shape o f t hfb
        subst hb
        exact ⟨b, rfl, by simp [processFile, hfb]⟩
    refine ⟨hfail, hok, ?_, ?_⟩
    · intro hpe
      cases hko : (fileTryBody o f).isOk with
      | false => rfl
      | true =>
        obtain ⟨b, _, hpf⟩ := hok hko
        rw [hpf] at hpe
        exact absurd hpe (contentPre_append_ne_errSeg f.name b)
    · exact hfail

theorem aggregation_segment_structure_witness :
    getKnowledgeFromDrive sampleOracle (Except.ok (some [syllabusFile, notesFile])) =
      Except.ok (List.intercalate segDelim
        ([syllabusFile, notesFile].map (processFile sampleOracle))) ∧
    processFile sampleOracle notesFile = errSeg notesFile.name :=
  ⟨(aggregation_segment_structure sampleOracle [syllabusFile, notesFile]).1,
    ((aggregation_segment_structure sampleOracle [syllabusFile, notesFile]).2.2.2
      notesFile).1 (by decide)⟩

/-- C5 counterexample: at the spec's example listing — an extractable
`syllabus.pdf` followed by a `notes.docx` whose extraction throws — the
aggregate is not the string the spec claims, because the failed file's
segment does not begin with its content heading. -/
theorem aggregation_example_counterexample :
    getKnowledgeFromDrive sampleOracle (Except.ok (some [syllabusFile, notesFile])) ≠
      Except.ok (("[Content from file: syllabus.pdf]\nWeek 1: Intro\n\n---\n\n[Content from file: notes.docx]\n[Error reading file: notes.docx]").data) := by
  intro h
  have h3 := congrArg (fun x => (Except.toOption x).getD []) h
  exact absurd h3 (by decide)

/-- C5 amended: for the example folder — `syllabus.pdf` whose PDF
extraction yields `t`, then `notes.docx` whose extraction throws — the
aggregate equals "[Content from file: syllabus.pdf]\n" ++ t ++
"\n\n---\n\n[Error reading file: notes.docx]": the failed file's segment
is the error placeholder alone, without a content heading. -/
theorem aggregation_example_amended (o : FileOracle) (t : Str) (b1 b2 : ByteBuf) (e : String)
    (hf1 : o.fetchBuffer "f1" = Except.ok b1)
    (hp : o.pdfText b1 = Except.ok t)
    (hf2 : o.fetchBuffer "f2" = Except.ok b2)
    (hd : o.docxText b2 = Except.error e) :
    getKnowledgeFromDrive o (Except.ok (some [syllabusFile, notesFile])) =
      Except.ok (("[Content from file: syllabus.pdf]\n").data ++ t ++
        ("\n\n---\n\n[Error reading file: notes.docx]").data) := by
  have h1 : processFile o syllabusFile = contentPre "syllabus.pdf" ++ t := by
    unfold processFile fileTryBody
    simp only [syllabusFile, hf1, Bind.bind, Except.bind]
    simp [hp, Pure.pure, Except.pure, pdfMime]
  have h2 : processFile o notesFile = errSeg "notes.docx" := by
    unfold processFile fileTryBody
    simp only [notesFile, hf2, Bind.bind, Except.bind]
    simp [hd, pdfMime, docxMime]
  have hj : ∀ x y : Str, List.intercalate segDelim [x, y] = x ++ (segDelim ++ y) := by
    intro x y
    simp [List.intercalate, List.intersperse]
  show getKnowledgeFromDrive o (Except.ok (some [syllabusFile, notesFile])) = _
  simp only [getKnowledgeFromDrive, List.map, h1, h2]
  rw [if_neg (by decide), hj]
  rw [show segDelim ++ errSeg "notes.docx" =
    ("\n\n---\n\n[Error reading file: notes.docx]").data by decide]
  rw [show contentPre "syllabus.pdf" = ("[Content from file: syllabus.pdf]\n").data by decide]

theorem aggregation_example_amended_witness :
    getKnowledgeFromDrive sampleOracle (Except.ok (some [syllabusFile, notesFile])) =
      Except.ok (("[Content from file: syllabus.pdf]\n").data ++ ("Week 1: Intro").data ++
        ("\n\n---\n\n[Error reading file: notes.docx]").data) :=
  aggregation_example_amended sampleOracle ("Week 1: Intro".data) [] [] ("mammoth failed")
    rfl rfl rfl rfl

/-- C8: for every HTTP-ok model response with no usable reply text, the
safety-blocked case and the plain-empty case yield textually different
user-visible error messages in the client. -/
theorem empty_reply_error_messages_distinct (r₁ r₂ : GResult)
    (h1 : jsTruthyOptStr (getGeneratedText r₁) = false)
    (h2 : jsTruthyOptStr (getGeneratedText r₂) = false)
    (hs : getFinishReason r₁ = some ("SAFETY"))
    (hn : getFinishReason r₂ ≠ some ("SAFETY")) :
    renderOkResult r₁ =
      Display.error ("The response was blocked due to safety settings. Try rephrasing your question.") ∧
    renderOkResult r₂ =
      Display.error ("Could not get a valid answer from the AI. The response was empty.") ∧
    renderOkResult r₁ ≠ renderOkResult r₂ := by
  have e1 : renderOkResult r₁ =
      Display.error ("The response was blocked due to safety settings. Try rephrasing your question.") := by
    simp [renderOkResult, h1, hs]
  have e2 : renderOkResult r₂ =
      Display.error ("Could not get a valid answer from the AI. The response was empty.") := by
    simp [renderOkResult, h2, hn]
  refine ⟨e1, e2, ?_⟩
  rw [e1, e2]
  decide

theorem empty_reply_error_messages_distinct_witness :
    renderOkResult safetyBlockedResult =
      Display.error ("The response was blocked due to safety settings. Try rephrasing your question.") ∧
    renderOkResult emptyCandidatesResult =
      Display.error ("Could not get a valid answer from the AI. The response was empty.") ∧
    renderOkResult safetyBlockedResult ≠ renderOkResult emptyCandidatesResult :=
  empty_reply_error_messages_distinct safetyBlockedResult emptyCandidatesResult
    (by decide) (by decide) (by decide) (by decide)

theorem findClose_sound (r : Str) (run : Str) (k : Nat) (h : findClose r = some (run, k)) :
    run ++ closeTagStr ++ r.drop k = r ∧ (∀ c ∈ run, lineTerm c = false) ∧
    k = run.length + 6 := by
  induction r generalizing run k with
  | nil => simp [findClose] at h
  | cons c cs ih =>
    rw [findClose] at h
    split_ifs at h with hpre hlt
    · obtain ⟨t, ht⟩ := List.isPrefixOf_iff_prefix.mp hpre
      simp only [Option.some.injEq, Prod.mk.injEq] at h
      obtain ⟨hrun, hk⟩ := h
      subst hrun hk
      refine ⟨?_, by simp, by simp⟩
      have hlen : closeTagStr.length = 6 := rfl
      have h6 : (c :: cs).drop 6 = t := by
        rw [← ht, ← hlen, List.drop_left]
      simp only [List.nil_append]
      rw [h6]
      exact ht
    · cases hfc : findClose cs with
      | none => rw [hfc] at h; simp at h
      | some p =>
        obtain ⟨run', k'⟩ := p
        rw [hfc] at h
        simp only [Option.some.injEq, Prod.mk.injEq] at h
        obtain ⟨hrun, hk⟩ := h
        subst hrun hk
        obtain ⟨h1, h2, h3⟩ := ih run' k' hfc
        have hclt : lineTerm c = false := by simpa using hlt
        refine ⟨?_, ?_, ?_⟩
        · have hd : (c :: cs).drop (k' + 1) = cs.drop k' := rfl
          rw [hd]
          simp only [List.cons_append]
          rw [h1]
        · intro x hx
          rcases List.mem_cons.mp hx with rfl | hx'
          · exact hclt
          · exact h2 x hx'
        · simp only [List.length_cons]
          omega

theorem scanMatches_sound (s : Str) :
    ∀ m ∈ scanMatches s,
      (∃ run, m = openTagStr ++ run ++ closeTagStr ∧ ∀ c ∈ run, lineTerm c = false) ∧
      m <:+: s := by
  induction s using scanMatches.induct with
  | case1 =>
    intro m hm
    simp [scanMatches] at hm
  | case2 c cs hpre run k hfc ih =>
    intro m hm
    rw [scanMatches, if_pos hpre, hfc] at hm
    obtain ⟨t5, ht5⟩ := List.isPrefixOf_iff_prefix.mp hpre
    have hd5 : (c :: cs).drop 5 = t5 := by
      have hlen : openTagStr.length = 5 := rfl
      rw [← ht5, ← hlen, List.drop_left]
    obtain ⟨h1, h2, h3⟩ := findClose_sound _ _ _ hfc
    rcases List.mem_cons.mp hm with rfl | hm'
    · refine ⟨⟨run, rfl, h2⟩, ?_⟩
      refine List.IsPrefix.isInfix ⟨((c :: cs).drop 5).drop k, ?_⟩
      conv_rhs => rw [← ht5, ← hd5, ← h1]
      simp [List.append_assoc]
    · obtain ⟨hshape, hinf⟩ := ih m hm'
      exact ⟨hshape, hinf.trans ((List.drop_suffix _ _).trans (List.drop_suffix _ _)).isInfix⟩
  | case3 c cs hpre hfc ih =>
    intro m hm
    rw [scanMatches, if_pos hpre, hfc] at hm
    obtain ⟨hs, hi⟩ := ih m hm
    exact ⟨hs, hi.trans (List.suffix_cons c cs).isInfix⟩
  | case4 c cs hpre ih =>
    intro m hm
    rw [scanMatches, if_neg hpre] at hm
    obtain ⟨hs, hi⟩ := ih m hm
    exact ⟨hs, hi.trans (List.suffix_cons c cs).isInfix⟩

theorem stripTags_sublist (s : Str) : List.Sublist (stripTags s) s := by
  induction s using stripTags.induct with
  | case1 => simp [stripTags]
  | case2 cs n hfg ih =>
    have he : stripTags ('<' :: cs) = stripTags (cs.drop n) := by
      rw [stripTags, if_pos rfl, hfg]
    rw [he]
    exact (ih.trans (List.drop_sublist n cs)).trans (List.sublist_cons_self '<' cs)
  | case3 cs hfg ih =>
    have he : stripTags ('<' :: cs) = '<' :: stripTags cs := by
      rw [stripTags, if_pos rfl, hfg]
    rw [he]
    exact ih.cons₂ '<'
  | case4 c cs hc ih =>
    have he : stripTags (c :: cs) = c :: stripTags cs := by
      rw [stripTags, if_neg hc]
    rw [he]
    exact ih.cons₂ c

theorem mem_intercalate_char (a x : Char) (ls : List Str) (h : x ∈ List.intercalate [a] ls) :
    x = a ∨ ∃ l ∈ ls, x ∈ l := by
  induction ls with
  | nil => simp [List.intercalate, List.intersperse] at h
  | cons y ys ih =>
    cases ys with
    | nil =>
      simp only [List.intercalate, List.intersperse, List.flatten] at h
      simp at h
      exact Or.inr ⟨y, by simp, h⟩
    | cons z zs =>
      have he : List.intercalate [a] (y :: z :: zs) =
          y ++ ([a] ++ List.intercalate [a] (z :: zs)) := by
        simp [List.intercalate, List.intersperse, List.append_assoc]
      rw [he] at h
      rcases List.mem_append.mp h with h1 | h2
      · exact Or.inr ⟨y, by simp, h1⟩
      · rcases List.mem_append.mp h2 with h3 | h4
        · simp at h3
          exact Or.inl h3
        · rcases ih h4 with h5 | ⟨l, hl, hxl⟩
          · exact Or.inl h5
          · exact Or.inr ⟨l, List.mem_cons_of_mem y hl, hxl⟩

theorem slideText_no_newline (xml : Str) : '\n' ∉ slideText xml := by
  intro hmem
  unfold slideText at hmem
  rcases mem_intercalate_char ' ' '\n' _ hmem with h | ⟨l, hl, hcl⟩
  · exact absurd h (by decide)
  · obtain ⟨m, hm, rfl⟩ := List.mem_map.mp hl
    have hmm : '\n' ∈ m := (stripTags_sublist m).subset hcl
    obtain ⟨⟨run, rfl, hrun⟩, _⟩ := scanMatches_sound xml m hm
    rcases List.mem_append.mp hmm with h1 | h2
    · rcases List.mem_append.mp h1 with h1a | h1b
      · exact absurd h1a (by decide)
      · exact absurd (hrun _ h1b) (by decide)
    · exact absurd h2 (by decide)

/-- C7: presentation extraction keeps exactly the substrings the global
text-run regex matches — each an infix of its slide XML of the form
opening tag, newline-free run, closing tag — strips remaining tags from
those runs by deletion only, joins runs with single spaces and slides
with single newlines preserving the archive's enumeration order of
`.xml` slide parts (splitting the result on newlines recovers exactly the
per-slide texts in order), and a slide with no text-run match contributes
an empty line rather than failing. -/
theorem pptx_extraction_properties :
    (∀ xml m, m ∈ scanMatches xml →
      (∃ run, m = openTagStr ++ run ++ closeTagStr ∧ ∀ c ∈ run, lineTerm c = false) ∧
      m <:+: xml) ∧
    (∀ t, List.Sublist (stripTags t) t) ∧
    (∀ xml, '\n' ∉ slideText xml) ∧
    (∀ entries : List ZipEntry,
      (entries.filter (fun e => (".xml").data.isSuffixOf e.relativePath)).map
        (fun e => slideText e.content) ≠ [] →
      (pptxText entries).splitOn '\n' =
        (entries.filter (fun e => (".xml").data.isSuffixOf e.relativePath)).map
          (fun e => slideText e.content)) ∧
    (∀ xml, scanMatches xml = [] → slideText xml = []) := by
  refine ⟨scanMatches_sound, stripTags_sublist, slideText_no_newline, ?_, ?_⟩
  · intro entries hne
    unfold pptxText
    refine List.splitOn_intercalate _ '\n' ?_ hne
    intro l hl
    obtain ⟨e, _, rfl⟩ := List.mem_map.mp hl
    exact slideText_no_newline _
  · intro xml h0
    unfold slideText
    rw [h0]
    rfl

theorem pptx_extraction_properties_witness :
    (pptxText sampleSlides).splitOn '\n' =
      (sampleSlides.filter (fun e => (".xml").data.isSuffixOf e.relativePath)).map
        (fun e => slideText e.content) :=
  pptx_extraction_properties.2.2.2.1 sampleSlides (by decide)
